import Mathlib

/-!
Shallow embedding of the study-room collaboration coordinator of
src/script.js: the event bus (const events, lines around 361-380), the
StudyRoom object (lines around 1277-1453) and the leave-room UI handler
(lines around 1571-1577).  JS Maps become association lists with
insertion-order set/delete, transport callbacks become a step function on
transport events, asynchronous outcomes (getUserMedia, Peer open/error)
become explicit parameters, and clock reads (new Date()) become a `now`
parameter.
-/

/-! ## Event bus (src/script.js, const events) -/

/-- A subscriber registered on one event name, abstracted to an identifier
and whether its callback throws when invoked.  The listeners for an event
are kept in a JS Set, iterated in insertion order. -/
structure Subscriber where
  id : Nat
  throws : Bool
deriving Repr, DecidableEq

/-- Embeds events.emit for one event: the source runs
listeners.forEach with the bare call of each callback and no try/catch, so
an exception thrown by a callback propagates out of forEach and aborts the
iteration.  Returns the ids of the subscribers that are actually invoked,
in order (a throwing subscriber is itself invoked before the abort). -/
def emitInvoked : List Subscriber → List Nat
  | [] => []
  | s :: rest => if s.throws then [s.id] else s.id :: emitInvoked rest

/-! ## Data model of the StudyRoom object -/

/-- Tagged payload sent on a data channel by sendMessage. -/
structure Msg where
  type : String
  sender : String
  content : String
deriving Repr, DecidableEq

/-- Events published on the event bus by the StudyRoom subsystem. -/
inductive Ev where
  | mediaInitialized (stream : Nat)
  | peerStream (peerId : String) (stream : Nat)
  | peerConnect (peerId : String)
  | peerDisconnect (peerId : String)
  | chatMessage (sender content : String) (timestamp : Nat)
  | errorEv
deriving Repr, DecidableEq

/-- Mutable fields of the StudyRoom object.  peers and connections are JS
Maps from peer id to a call / connection handle (handles stand for the
PeerJS objects); localStream and peer hold handles or null; roomCode is a
string or null (modelled as a list of characters). -/
structure RoomState where
  peers : List (String × Nat)
  connections : List (String × Nat)
  localStream : Option Nat
  roomCode : Option (List Char)
  peer : Option Nat
deriving Repr, DecidableEq

/-- The object-literal initial state of StudyRoom: empty Maps and nulls. -/
def initRoom : RoomState :=
  { peers := [], connections := [], localStream := none,
    roomCode := none, peer := none }

/-- JS Map.set: updates the existing entry in place (keeping insertion
order) or appends a new entry at the end. -/
def mapSet (m : List (String × Nat)) (k : String) (v : Nat) :
    List (String × Nat) :=
  if m.any (fun q => q.1 == k) then
    m.map (fun q => if q.1 == k then (k, v) else q)
  else m ++ [(k, v)]

/-- JS Map.delete: removes the entry for the key if present. -/
def mapDelete (m : List (String × Nat)) (k : String) : List (String × Nat) :=
  m.filter (fun q => q.1 ≠ k)

/-- The key list of a Map, in insertion order. -/
def keys (m : List (String × Nat)) : List String := m.map Prod.fst

/-! ## connectToPeer (src/script.js lines 1356-1364)

connectToPeer(peerId) unconditionally runs
  const call = this.peer.call(peerId, this.localStream); this.handleCall(call);
  const conn = this.peer.connect(peerId); this.handleConnection(conn);
handleCall registers stream/close callbacks and does this.peers.set;
handleConnection only registers open/data/close callbacks (the
connections Map is written by the open callback, not here). -/

/-- Transport actions a connectToPeer call issues: the peer ids it dials a
media call to and opens a data connection to. -/
structure ConnectEffects where
  mediaCalls : List String
  dataConns : List String
deriving Repr, DecidableEq

/-- Embeds StudyRoom.connectToPeer.  callHandle stands for the new call
object returned by this.peer.call. -/
def connectToPeer (st : RoomState) (peerId : String) (callHandle : Nat) :
    RoomState × ConnectEffects :=
  ({ st with peers := mapSet st.peers peerId callHandle },
   { mediaCalls := [peerId], dataConns := [peerId] })

/-- A sequence of connectToPeer calls (peer id and fresh call handle). -/
def connectSeq (st : RoomState) : List (String × Nat) → RoomState
  | [] => st
  | (p, h) :: rest => connectSeq (connectToPeer st p h).1 rest

/-! ## Transport-event callbacks (handleCall, handleConnection,
handlePeerMessage; src/script.js lines 1366-1405) -/

/-- Transport events delivered to the callbacks registered by handleCall
and handleConnection, plus incoming call/connection events from
setupPeerEvents. -/
inductive TEv where
  | connOpen (peerId : String) (handle : Nat)
  | connData (peerId : String) (message : Msg) (now : Nat)
  | connClose (peerId : String)
  | callStream (peerId : String) (stream : Nat)
  | callClose (peerId : String)
  | incomingCall (peerId : String) (handle : Nat)
  | incomingConn (peerId : String)
deriving Repr, DecidableEq

/-- Embeds StudyRoom.handlePeerMessage: a switch on message.type whose only
case is the chat tag, which republishes the payload on the event bus with a
timestamp read from the receiver's own clock (new Date(), the now
argument); every other tag falls through with no effect. -/
def handlePeerMessage (_peerId : String) (message : Msg) (now : Nat) :
    List Ev :=
  if message.type == "chat" then
    [Ev.chatMessage message.sender message.content now]
  else []

/-- One transport event processed by the callbacks of handleCall /
handleConnection / setupPeerEvents: returns the new state and the bus
events emitted.
  conn open:   connections.set, emit peer:connect;
  conn data:   handlePeerMessage;
  conn close:  connections.delete, emit peer:disconnect;
  call stream: emit peer:stream (state untouched);
  call close:  emit peer:disconnect only - the peers Map is NOT touched;
  incoming call: answered then handleCall, which does peers.set;
  incoming conn: handleConnection only registers callbacks. -/
def step (st : RoomState) : TEv → RoomState × List Ev
  | TEv.connOpen p h =>
      ({ st with connections := mapSet st.connections p h },
       [Ev.peerConnect p])
  | TEv.connData p m now => (st, handlePeerMessage p m now)
  | TEv.connClose p =>
      ({ st with connections := mapDelete st.connections p },
       [Ev.peerDisconnect p])
  | TEv.callStream p s => (st, [Ev.peerStream p s])
  | TEv.callClose p => (st, [Ev.peerDisconnect p])
  | TEv.incomingCall p h =>
      ({ st with peers := mapSet st.peers p h }, [])
  | TEv.incomingConn _ => (st, [])

/-- Runs a list of transport events through step. -/
def run (st : RoomState) : List TEv → RoomState
  | [] => st
  | e :: rest => run (step st e).1 rest

/-! ## sendMessage (src/script.js lines 1407-1424) -/

/-- Embeds the sender expression: the optional-chaining-with-default
AppState.user?.name with the or-else of the string Anonymous; the JS
or-else also replaces an empty name, since the empty string is falsy. -/
def senderName (user : Option String) : String :=
  match user with
  | none => "Anonymous"
  | some n => if n == "" then "Anonymous" else n

/-- The const data object of sendMessage: the tagged chat payload. -/
def chatPayload (user : Option String) (text : String) : Msg :=
  { type := "chat", sender := senderName user, content := text }

/-- Embeds StudyRoom.sendMessage: builds the tagged chat payload, sends it
on every connection currently in the connections Map
(this.connections.forEach with conn.send), then emits exactly one local
chat:message echo with the sender and content of the payload and the local
clock.  Returns the per-peer sends and the bus events. -/
def sendMessage (st : RoomState) (text : String) (user : Option String)
    (now : Nat) : List (String × Msg) × List Ev :=
  (st.connections.map (fun c => (c.1, chatPayload user text)),
   [Ev.chatMessage (chatPayload user text).sender
     (chatPayload user text).content now])

/-! ## stopMedia and the leave-room handler (src/script.js lines
1439-1453 and 1571-1577) -/

/-- Result of stopMedia / leaveRoom: the new state, the bus events emitted
synchronously (none in the source), and the call handles the source closes
via peer.close() while iterating the peers Map. -/
structure StopResult where
  state : RoomState
  events : List Ev
  closedCalls : List String
deriving Repr, DecidableEq

/-- Embeds StudyRoom.stopMedia: stops the local tracks and nulls
localStream when present, calls close() on every media call, clears both
Maps, destroys and nulls the peer.  roomCode is not touched here.  No bus
event is emitted by this function itself. -/
def stopMedia (st : RoomState) : StopResult :=
  { state :=
      { st with
        localStream := none, peers := [], connections := [], peer := none },
    events := [],
    closedCalls := keys st.peers }

/-- Embeds the leave-room click handler: awaits stopMedia, then sets
StudyRoom.roomCode to null. -/
def leaveRoom (st : RoomState) : StopResult :=
  let r := stopMedia st
  { r with state := { r.state with roomCode := none } }

/-! ## Media and peer initialization, createRoom, joinRoom
(src/script.js lines 1284-1296, 1298-1325, 1426-1437) -/

/-- Result of an initialization step or a whole createRoom/joinRoom: the
state afterwards, the bus events emitted, and whether it succeeded (ok =
false embeds a thrown/rejected error). -/
structure OpResult where
  state : RoomState
  events : List Ev
  ok : Bool
deriving Repr, DecidableEq

/-- Embeds StudyRoom.initializeMedia (source name), with the getUserMedia
outcome as a parameter: on success stores the stream and emits
media:initialized; on denial the catch block reports the error (which
emits an error bus event) and the function throws, leaving localStream
unassigned. -/
def initMedia (st : RoomState) (media : Option Nat) : OpResult :=
  match media with
  | some s =>
      { state := { st with localStream := some s },
        events := [Ev.mediaInitialized s], ok := true }
  | none => { state := st, events := [Ev.errorEv], ok := false }

/-- Embeds StudyRoom.initializePeer (source name): destroys any previous
peer, assigns this.peer a fresh Peer object (newHandle) in both outcomes,
resolves on its open event or reports-and-rejects on its error event. -/
def initPeer (st : RoomState) (newHandle : Nat) (ok : Bool) : OpResult :=
  { state := { st with peer := some newHandle },
    events := if ok then [] else [Ev.errorEv], ok := ok }

/-- Embeds the room-code expression of createRoom:
utils.generateId().slice(0, 6).toUpperCase() applied to the UUID string
returned by crypto.randomUUID(). -/
def generateRoomCode (uuid : List Char) : List Char :=
  (uuid.take 6).map Char.toUpper

/-- Embeds StudyRoom.createRoom: assigns this.roomCode the fresh code
first, then awaits media and peer initialization; a rejection propagates
(ok = false) with the state as the mutations so far left it.  On success
returns this.roomCode. -/
def createRoom (st : RoomState) (uuid : List Char) (media : Option Nat)
    (peerHandle : Nat) (peerOk : Bool) : OpResult × Option (List Char) :=
  let st1 := { st with roomCode := some (generateRoomCode uuid) }
  let m := initMedia st1 media
  if m.ok then
    let p := initPeer m.state peerHandle peerOk
    if p.ok then
      ({ state := p.state, events := m.events ++ p.events, ok := true },
       p.state.roomCode)
    else
      ({ state := p.state, events := m.events ++ p.events, ok := false },
       none)
  else ({ state := m.state, events := m.events, ok := false }, none)

/-- Embeds StudyRoom.getRoomPeers: the source returns the empty list. -/
def getRoomPeers : List String := []

/-- Embeds StudyRoom.joinRoom: assigns this.roomCode the uppercased input
code first, then the same initialization as createRoom, then
connectToRoom, which calls connectToPeer once per peer id returned by
getRoomPeers. -/
def joinRoom (st : RoomState) (code : List Char) (media : Option Nat)
    (peerHandle : Nat) (peerOk : Bool) : OpResult :=
  let st1 := { st with roomCode := some (code.map Char.toUpper) }
  let m := initMedia st1 media
  if m.ok then
    let p := initPeer m.state peerHandle peerOk
    if p.ok then
      { state := connectSeq p.state (getRoomPeers.map (fun q => (q, 0))),
        events := m.events ++ p.events, ok := true }
    else { state := p.state, events := m.events ++ p.events, ok := false }
  else { state := m.state, events := m.events, ok := false }

/-! ## The contract of crypto.randomUUID -/

/-- The ten decimal digit characters. -/
def decimalDigits : List Char :=
  ['0', '1', '2', '3', '4'] ++ ['5', '6', '7', '8', '9']

/-- The six extra lowercase digit characters of base sixteen. -/
def lowerHexLetters : List Char := ['a', 'b', 'c', 'd', 'e', 'f']

/-- The sixteen lowercase hexadecimal digits. -/
def lowerHexDigits : List Char := decimalDigits ++ lowerHexLetters

/-- Whether a character is a lowercase hexadecimal digit. -/
def isLowerHex (c : Char) : Bool := lowerHexDigits.contains c

/-- Modelled from the spec and the platform contract of
crypto.randomUUID (the body of utils.generateId, a browser API not in
src/): a 36-character string of lowercase hexadecimal digits with hyphens
at positions 8, 13, 18 and 23. -/
def isUUID (u : List Char) : Bool :=
  u.length == 36 &&
  (List.range 36).all (fun i =>
    if i == 8 || i == 13 || i == 18 || i == 23 then u.getD i ' ' == '-'
    else isLowerHex (u.getD i ' '))

/-- Whether a character is an uppercase letter or a digit, the character
class of the room-code format. -/
def isUpperAlnum (c : Char) : Bool :=
  ('A' ≤ c && c ≤ 'Z') || ('0' ≤ c && c ≤ '9')

/-! ## Concrete states and inputs used by counterexamples and witnesses -/

/-- A state in which peer P already has a registry record with
non-terminal state (a live media call and an open data connection). -/
def roomWithPeerP : RoomState :=
  { peers := [("P", 0)], connections := [("P", 0)],
    localStream := some 0, roomCode := some ['A', 'B', 'C', 'D', 'E', 'F'],
    peer := some 1 }

/-- A state in which peer Q has a live media call and no data connection
(dataState None, a terminal state in the spec's sense). -/
def roomWithPeerQ : RoomState :=
  { peers := [("Q", 0)], connections := [],
    localStream := some 0, roomCode := some ['A', 'B', 'C', 'D', 'E', 'F'],
    peer := some 1 }

/-- A state with three known peers of which exactly two, A and B, have an
open data connection; the data channel of C is closed (its entry was
deleted from the connections Map). -/
def roomTwoOpen : RoomState :=
  { peers := [("A", 0), ("B", 1), ("C", 2)],
    connections := [("A", 0), ("B", 1)],
    localStream := some 0, roomCode := some ['A', 'B', 'C', 'D', 'E', 'F'],
    peer := some 1 }

/-- A concrete well-formed version-4 UUID string. -/
def uuidSample : List Char := "110ec58a-a0f2-4ac4-8393-c866d813b8d1".toList

/-! ## Helper lemmas -/

/-- Map.set leaves the key list unchanged when the key is present and
appends the key otherwise. -/
theorem keys_mapSet (m : List (String × Nat)) (k : String) (v : Nat) :
    keys (mapSet m k v) =
      if m.any (fun q => q.1 == k) then keys m else keys m ++ [k] := by
  unfold mapSet keys
  split
  · rw [List.map_map]
    refine List.map_congr_left (fun q _ => ?_)
    by_cases hq : q.1 == k
    · have hk : q.1 = k := eq_of_beq hq
      simp [hq, hk]
    · have hk : q.1 ≠ k := by simpa using hq
      simp [hq, hk]
  · simp

/-- Membership in the key list after a Map.set. -/
theorem mem_keys_mapSet (m : List (String × Nat)) (k : String) (v : Nat)
    (p : String) (h : p ∈ keys (mapSet m k v)) : p = k ∨ p ∈ keys m := by
  rw [keys_mapSet] at h
  split_ifs at h with hany
  · exact Or.inr h
  · rcases List.mem_append.mp h with h1 | h1
    · exact Or.inr h1
    · simp only [List.mem_singleton] at h1
      exact Or.inl h1

/-- Map.set preserves the at-most-one-entry-per-key property. -/
theorem nodup_keys_mapSet (m : List (String × Nat)) (k : String) (v : Nat)
    (h : (keys m).Nodup) : (keys (mapSet m k v)).Nodup := by
  rw [keys_mapSet]
  split_ifs with hany
  · exact h
  · have hk : k ∉ keys m := by
      intro hmem
      apply hany
      simp only [keys, List.mem_map] at hmem
      obtain ⟨q, hq, rfl⟩ := hmem
      exact List.any_eq_true.mpr ⟨q, hq, by simp⟩
    simp [List.nodup_append, h, hk]

/-- Map.delete only removes entries: its key list is a sub-collection. -/
theorem mem_keys_mapDelete (m : List (String × Nat)) (k p : String)
    (h : p ∈ keys (mapDelete m k)) : p ∈ keys m := by
  simp only [keys, mapDelete, List.mem_map] at h ⊢
  obtain ⟨q, hq, rfl⟩ := h
  exact ⟨q, List.mem_of_mem_filter hq, rfl⟩

/-- Any sequence of connectToPeer calls preserves key uniqueness of the
peers Map. -/
theorem connectSeq_nodup (ps : List (String × Nat)) :
    ∀ st : RoomState, (keys st.peers).Nodup →
      (keys (connectSeq st ps).peers).Nodup := by
  induction ps with
  | nil => intro st h; exact h
  | cons q rest ih =>
      intro st h
      obtain ⟨p, hd⟩ := q
      exact ih _ (nodup_keys_mapSet _ _ _ h)

/-- A key of the connections Map after a run of transport events was
either there initially or was put there by a data-channel open event. -/
theorem run_connOpen_origin (evts : List TEv) :
    ∀ (st : RoomState) (p : String), p ∈ keys (run st evts).connections →
      p ∈ keys st.connections ∨ ∃ hd, TEv.connOpen p hd ∈ evts := by
  induction evts with
  | nil => intro st p h; exact Or.inl h
  | cons e rest ih =>
      intro st p h
      rcases ih (step st e).1 p h with h1 | ⟨hd, hm⟩
      · cases e with
        | connOpen q qh =>
            rcases mem_keys_mapSet _ _ _ _ h1 with rfl | h2
            · exact Or.inr ⟨qh, List.mem_cons_self _ _⟩
            · exact Or.inl h2
        | connClose q => exact Or.inl (mem_keys_mapDelete _ _ _ h1)
        | connData q m now => exact Or.inl h1
        | callStream q s => exact Or.inl h1
        | callClose q => exact Or.inl h1
        | incomingCall q qh => exact Or.inl h1
        | incomingConn q => exact Or.inl h1
      · exact Or.inr ⟨hd, List.mem_cons_of_mem _ hm⟩

/-- When no registered subscriber throws, the bare forEach dispatch of
emit invokes all of them in order. -/
theorem emitInvoked_no_throw (l : List Subscriber)
    (h : ∀ t ∈ l, t.throws = false) :
    emitInvoked l = l.map Subscriber.id := by
  induction l with
  | nil => rfl
  | cons t ts ih =>
      have ht : t.throws = false := h t (List.mem_cons_self t ts)
      simp [emitInvoked, ht,
        ih (fun x hx => h x (List.mem_cons_of_mem t hx))]

/-- The dispatch of emit stops right after the first throwing subscriber:
everything before it and the thrower itself run, nothing after it does. -/
theorem emitInvoked_stops (pre post : List Subscriber) (s : Subscriber)
    (hpre : ∀ t ∈ pre, t.throws = false) (hs : s.throws = true) :
    emitInvoked (pre ++ s :: post) = pre.map Subscriber.id ++ [s.id] := by
  induction pre with
  | nil => simp [emitInvoked, hs]
  | cons t ts ih =>
      have ht : t.throws = false := hpre t (List.mem_cons_self t ts)
      simp [emitInvoked, ht,
        ih (fun x hx => hpre x (List.mem_cons_of_mem t hx))]

/-- The uppercase image of a lowercase hexadecimal digit is an uppercase
letter or a digit. -/
theorem isUpperAlnum_toUpper_of_isLowerHex (c : Char)
    (h : isLowerHex c = true) : isUpperAlnum c.toUpper = true := by
  have hm : c ∈ decimalDigits ++ lowerHexLetters := by
    simpa [isLowerHex, lowerHexDigits] using h
  fin_cases hm <;> decide

/-- The first six characters of a well-formed UUID are lowercase
hexadecimal digits. -/
theorem uuid_first_six (u : List Char) (h : isUUID u = true) :
    ∃ c0 c1 c2 c3 c4 c5 rest, u = c0 :: c1 :: c2 :: c3 :: c4 :: c5 :: rest ∧
      isLowerHex c0 = true ∧ isLowerHex c1 = true ∧ isLowerHex c2 = true ∧
      isLowerHex c3 = true ∧ isLowerHex c4 = true ∧ isLowerHex c5 = true := by
  simp only [isUUID, Bool.and_eq_true, beq_iff_eq, List.all_eq_true,
    List.mem_range] at h
  obtain ⟨hlen, hall⟩ := h
  have h0 := hall 0 (by norm_num)
  have h1 := hall 1 (by norm_num)
  have h2 := hall 2 (by norm_num)
  have h3 := hall 3 (by norm_num)
  have h4 := hall 4 (by norm_num)
  have h5 := hall 5 (by norm_num)
  simp only [show ((0 == 8 || 0 == 13 || 0 == 18 || 0 == 23) = false)
    from rfl] at h0
  simp only [show ((1 == 8 || 1 == 13 || 1 == 18 || 1 == 23) = false)
    from rfl] at h1
  simp only [show ((2 == 8 || 2 == 13 || 2 == 18 || 2 == 23) = false)
    from rfl] at h2
  simp only [show ((3 == 8 || 3 == 13 || 3 == 18 || 3 == 23) = false)
    from rfl] at h3
  simp only [show ((4 == 8 || 4 == 13 || 4 == 18 || 4 == 23) = false)
    from rfl] at h4
  simp only [show ((5 == 8 || 5 == 13 || 5 == 18 || 5 == 23) = false)
    from rfl] at h5
  rcases u with _ | ⟨c0, u⟩
  · simp at hlen
  rcases u with _ | ⟨c1, u⟩
  · simp at hlen
  rcases u with _ | ⟨c2, u⟩
  · simp at hlen
  rcases u with _ | ⟨c3, u⟩
  · simp at hlen
  rcases u with _ | ⟨c4, u⟩
  · simp at hlen
  rcases u with _ | ⟨c5, u⟩
  · simp at hlen
  exact ⟨c0, c1, c2, c3, c4, c5, u, rfl, h0, h1, h2, h3, h4, h5⟩

/-- The peer ids sendMessage sends to are exactly the keys of the
connections Map. -/
theorem sendMessage_targets (st : RoomState) (text : String)
    (user : Option String) (now : Nat) :
    (sendMessage st text user now).1.map Prod.fst = keys st.connections := by
  show (st.connections.map _).map Prod.fst = _
  rw [List.map_map]
  rfl

/-! ## Claim theorems -/

/-- Claim C1, counterexample: in a state where peer P already has a
registry record with non-terminal state (live media call, open data
connection), a further connectToPeer still initiates a new media call and
a new data connection, so the call is not a no-op as the claim states. -/
theorem connectToPeer_not_noop_cex :
    "P" ∈ keys roomWithPeerP.peers ∧ "P" ∈ keys roomWithPeerP.connections ∧
    ¬((connectToPeer roomWithPeerP "P" 1).2.mediaCalls = [] ∧
      (connectToPeer roomWithPeerP "P" 1).2.dataConns = []) := by
  decide

/-- Claim C1, amended: connectToPeer performs no existing-record check and
always initiates exactly one new media call and one new data connection,
even for a peer id that already has a non-terminal record; nevertheless,
after any sequence of connectToPeer calls the Peer Registry still contains
at most one record per peer-id, because Map.set overwrites the record in
place. -/
theorem connect_registry_at_most_one (st : RoomState)
    (ps : List (String × Nat)) (h : (keys st.peers).Nodup) :
    (keys (connectSeq st ps).peers).Nodup ∧
    ∀ p hd, (connectToPeer st p hd).2.mediaCalls = [p] ∧
      (connectToPeer st p hd).2.dataConns = [p] :=
  ⟨connectSeq_nodup ps st h, fun _ _ => ⟨rfl, rfl⟩⟩

/-- Claim C1, witness: a run with a repeated peer id keeps registry keys
unique, and every call issues one media call and one data connection. -/
theorem connect_registry_at_most_one_witness :
    (keys (connectSeq initRoom [("P", 0), ("P", 1), ("Q", 2)]).peers).Nodup ∧
    ∀ p hd, (connectToPeer initRoom p hd).2.mediaCalls = [p] ∧
      (connectToPeer initRoom p hd).2.dataConns = [p] :=
  connect_registry_at_most_one initRoom [("P", 0), ("P", 1), ("Q", 2)]
    (by decide)

/-- Claim C2, counterexample: with two subscribers of which the first
throws, the second registered subscriber is not invoked by emit, because
the bare forEach dispatch has no per-callback try/catch. -/
theorem emit_throwing_subscriber_cex :
    (⟨1, false⟩ : Subscriber) ∈ [⟨0, true⟩, (⟨1, false⟩ : Subscriber)] ∧
    (1 : Nat) ∉ emitInvoked [⟨0, true⟩, ⟨1, false⟩] := by
  decide

/-- Claim C2, amended: emit invokes subscribers in registration order up
to and including the first subscriber that throws; a throwing subscriber
prevents delivery to all later subscribers for that event, and when no
subscriber throws every registered subscriber is invoked. -/
theorem emit_invokes_until_first_throw (pre post all : List Subscriber)
    (s : Subscriber) (hpre : ∀ t ∈ pre, t.throws = false)
    (hs : s.throws = true) (hall : ∀ t ∈ all, t.throws = false) :
    emitInvoked (pre ++ s :: post) = pre.map Subscriber.id ++ [s.id] ∧
    emitInvoked all = all.map Subscriber.id :=
  ⟨emitInvoked_stops pre post s hpre hs, emitInvoked_no_throw all hall⟩

/-- Claim C2, witness: one healthy subscriber, then a thrower, then one
more subscriber: exactly the first two run; a throw-free list runs whole. -/
theorem emit_invokes_until_first_throw_witness :
    emitInvoked ([⟨0, false⟩] ++ ⟨1, true⟩ :: [⟨2, false⟩]) =
      [(⟨0, false⟩ : Subscriber)].map Subscriber.id ++
        [(⟨1, true⟩ : Subscriber).id] ∧
    emitInvoked [⟨3, false⟩] =
      [(⟨3, false⟩ : Subscriber)].map Subscriber.id :=
  emit_invokes_until_first_throw [⟨0, false⟩] [⟨2, false⟩] [⟨3, false⟩]
    ⟨1, true⟩ (by decide) rfl (by decide)

/-- Claim C3, counterexample: starting from the idle initial state, a
createRoom whose media acquisition is denied fails, yet the state after
the failed attempt differs from the pre-attempt state: the freshly
generated room code remains set. -/
theorem createRoom_no_partial_room_cex :
    initRoom.roomCode = none ∧
    ((createRoom initRoom uuidSample none 1 true).1.ok = false) ∧
    ((createRoom initRoom uuidSample none 1 true).1.state ≠ initRoom) ∧
    ((createRoom initRoom uuidSample none 1 true).1.state.roomCode ≠
      none) := by
  decide

/-- Claim C3, amended: if media acquisition fails during createRoom, the
operation fails (one error bus event, no room code returned) and the peer
registry and local stream are untouched, but the application does not
return to the pre-attempt state: the newly generated room code remains
assigned to roomCode. -/
theorem createRoom_media_failure_state (st : RoomState) (uuid : List Char)
    (ph : Nat) (pok : Bool) :
    ((createRoom st uuid none ph pok).1.ok = false) ∧
    ((createRoom st uuid none ph pok).2 = none) ∧
    ((createRoom st uuid none ph pok).1.state =
      { st with roomCode := some (generateRoomCode uuid) }) ∧
    ((createRoom st uuid none ph pok).1.events = [Ev.errorEv]) :=
  ⟨rfl, rfl, rfl, rfl⟩

/-- Claim C4, counterexample: peer Q has a live media call and no data
connection (the data channel is terminal), yet after the media call's
close event fires, Q's record is still present in the peers Map: the entry
is not deleted even though both channels are then terminal. -/
theorem registry_not_removed_on_close_cex :
    roomWithPeerQ.connections = [] ∧
    ((step roomWithPeerQ (TEv.callClose "Q")).1.peers = [("Q", 0)]) ∧
    "Q" ∈ keys (step roomWithPeerQ (TEv.callClose "Q")).1.peers := by
  decide

/-- Claim C4, amended: a data-channel close event deletes the peer's entry
from the connections Map (and emits peer:disconnect), but a media-call
close event changes no registry state at all — it only emits
peer:disconnect; records in the peers Map are never removed by channel
closure, only cleared wholesale by stopMedia. -/
theorem close_event_registry_semantics (st : RoomState) (p : String) :
    ((step st (TEv.connClose p)).1.connections =
      mapDelete st.connections p) ∧
    ((step st (TEv.connClose p)).2 = [Ev.peerDisconnect p]) ∧
    ((step st (TEv.callClose p)).1 = st) ∧
    ((step st (TEv.callClose p)).2 = [Ev.peerDisconnect p]) :=
  ⟨rfl, rfl, rfl, rfl⟩

/-- Claim C5: sendMessage delivers the tagged chat payload to exactly the
peers present in the connections Map (those whose data channel is Open); a
peer with a closed channel is absent from that Map, is silently skipped
and causes no error; and exactly one local chat:message echo event is
emitted, whatever the number of peers (including zero). -/
theorem sendMessage_delivers_open_only (st : RoomState) (text : String)
    (user : Option String) (now : Nat) (closedPeer : String)
    (hc : closedPeer ∉ keys st.connections) :
    ((sendMessage st text user now).1.map Prod.fst = keys st.connections) ∧
    (closedPeer ∉ (sendMessage st text user now).1.map Prod.fst) ∧
    (∀ q msg, (q, msg) ∈ (sendMessage st text user now).1 →
      msg = chatPayload user text) ∧
    ((sendMessage st text user now).2 =
      [Ev.chatMessage (senderName user) text now]) := by
  refine ⟨sendMessage_targets st text user now, ?_, ?_, rfl⟩
  · rw [sendMessage_targets]
    exact hc
  · intro q msg hm
    simp only [sendMessage, List.mem_map] at hm
    obtain ⟨c, hmem, heq⟩ := hm
    injection heq with h1 h2
    exact h2.symm

/-- Claim C5, witness: two open peers A and B and a closed peer C: the
payload goes exactly to A and B, C receives nothing, one echo is emitted. -/
theorem sendMessage_delivers_open_only_witness :
    ((sendMessage roomTwoOpen "hi" none 9).1.map Prod.fst =
      keys roomTwoOpen.connections) ∧
    ("C" ∉ (sendMessage roomTwoOpen "hi" none 9).1.map Prod.fst) ∧
    (∀ q msg, (q, msg) ∈ (sendMessage roomTwoOpen "hi" none 9).1 →
      msg = chatPayload none "hi") ∧
    ((sendMessage roomTwoOpen "hi" none 9).2 =
      [Ev.chatMessage (senderName none) "hi" 9]) :=
  sendMessage_delivers_open_only roomTwoOpen "hi" none 9 "C" (by decide)

/-- Claim C6: whatever the prior state, after the leave-room teardown both
registry Maps are empty and the local media stream reference is null. -/
theorem leaveRoom_clears_registry_and_stream (st : RoomState) :
    ((leaveRoom st).state.peers = []) ∧
    ((leaveRoom st).state.connections = []) ∧
    ((leaveRoom st).state.localStream = none) :=
  ⟨rfl, rfl, rfl⟩

/-- Claim C7: when the session is already idle (no local stream, no
peers, no open connections, no transport identity, no room code), the
leave-room teardown is a no-op: the state is unchanged, no bus event is
emitted and no channel close is issued. -/
theorem leaveRoom_idle_noop (st : RoomState) (h1 : st.localStream = none)
    (h2 : st.peers = []) (h3 : st.connections = []) (h4 : st.peer = none)
    (h5 : st.roomCode = none) :
    (leaveRoom st).state = st ∧ (leaveRoom st).events = [] ∧
    (leaveRoom st).closedCalls = [] := by
  obtain ⟨p, c, ls, rc, pr⟩ := st
  simp only at h1 h2 h3 h4 h5
  subst h1 h2 h3 h4 h5
  exact ⟨rfl, rfl, rfl⟩

/-- Claim C7, witness: the initial idle state is left unchanged. -/
theorem leaveRoom_idle_noop_witness :
    (leaveRoom initRoom).state = initRoom ∧
    (leaveRoom initRoom).events = [] ∧
    (leaveRoom initRoom).closedCalls = [] :=
  leaveRoom_idle_noop initRoom rfl rfl rfl rfl rfl

/-- Claim C8: inbound dispatch classifies a message by its type tag: a
chat message is republished on the bus with the sender and content of the
payload and a timestamp taken from the receiver's clock (the now argument,
not anything sent by the peer), while a message with any unknown tag is
ignored: no event, no state change. -/
theorem handlePeerMessage_dispatch (p1 p2 : String) (m u : Msg)
    (now1 now2 : Nat) (hm : m.type = "chat") (hu : u.type ≠ "chat") :
    handlePeerMessage p1 m now1 =
      [Ev.chatMessage m.sender m.content now1] ∧
    handlePeerMessage p2 u now2 = [] := by
  constructor
  · simp [handlePeerMessage, hm]
  · simp [handlePeerMessage, hu]

/-- Claim C8, witness: a chat message is republished with the local
receipt time; a message with an unknown tag produces nothing. -/
theorem handlePeerMessage_dispatch_witness :
    handlePeerMessage "p" (Msg.mk "chat" "alice" "hi") 5 =
      [Ev.chatMessage "alice" "hi" 5] ∧
    handlePeerMessage "q" (Msg.mk "ping" "bob" "x") 7 = [] :=
  handlePeerMessage_dispatch "p" "q" (Msg.mk "chat" "alice" "hi")
    (Msg.mk "ping" "bob" "x") 5 7 rfl (by decide)

/-- Claim C9: for every well-formed UUID returned by crypto.randomUUID,
the room code produced by createRoom is exactly six characters, all
uppercase letters or digits (so it matches the anchored A-Z0-9 six-char
pattern), and createRoom returns exactly that code on success; joinRoom
assigns roomCode the uppercased input code before anything else, whatever
the outcome of the rest of the join. -/
theorem roomCode_format_and_join_normalization (uuid : List Char)
    (h : isUUID uuid = true) (st st2 : RoomState) (code : List Char)
    (stream peerHandle ph2 : Nat) (media : Option Nat) (pok : Bool) :
    ((generateRoomCode uuid).length = 6) ∧
    ((generateRoomCode uuid).all isUpperAlnum = true) ∧
    ((createRoom st uuid (some stream) peerHandle true).2 =
      some (generateRoomCode uuid)) ∧
    ((joinRoom st2 code media ph2 pok).state.roomCode =
      some (code.map Char.toUpper)) := by
  obtain ⟨c0, c1, c2, c3, c4, c5, rest, rfl, hx0, hx1, hx2, hx3, hx4, hx5⟩ :=
    uuid_first_six uuid h
  have t0 := isUpperAlnum_toUpper_of_isLowerHex c0 hx0
  have t1 := isUpperAlnum_toUpper_of_isLowerHex c1 hx1
  have t2 := isUpperAlnum_toUpper_of_isLowerHex c2 hx2
  have t3 := isUpperAlnum_toUpper_of_isLowerHex c3 hx3
  have t4 := isUpperAlnum_toUpper_of_isLowerHex c4 hx4
  have t5 := isUpperAlnum_toUpper_of_isLowerHex c5 hx5
  refine ⟨rfl, ?_, rfl, ?_⟩
  · simp [generateRoomCode, t0, t1, t2, t3, t4, t5]
  · cases media with
    | none => rfl
    | some s =>
        cases pok with
        | false => rfl
        | true => rfl

/-- Claim C9, witness: a concrete UUID yields the six-character uppercase
alphanumeric code, and joining with a lowercase code stores it uppercased. -/
theorem roomCode_format_witness :
    ((generateRoomCode uuidSample).length = 6) ∧
    ((generateRoomCode uuidSample).all isUpperAlnum = true) ∧
    ((createRoom initRoom uuidSample (some 0) 1 true).2 =
      some (generateRoomCode uuidSample)) ∧
    ((joinRoom initRoom "ab12cd".toList (some 0) 1 true).state.roomCode =
      some ("ab12cd".toList.map Char.toUpper)) :=
  roomCode_format_and_join_normalization uuidSample (by decide) initRoom
    initRoom "ab12cd".toList 0 1 1 (some 0) true

/-- Claim C10: starting with an empty connections Map, after any sequence
of transport events every peer in the connections Map got there through
its data channel's open event; a data-channel close event deletes the
entry; sendMessage targets exactly the peers of that Map (so it never
sends on a channel that has not opened); and with no signed-in user the
attached sender name is Anonymous. -/
theorem connections_open_invariant (evts : List TEv) (st0 st1 : RoomState)
    (h0 : st0.connections = []) (text : String) (now : Nat) (p0 : String) :
    (∀ p, p ∈ keys (run st0 evts).connections →
      ∃ hd, TEv.connOpen p hd ∈ evts) ∧
    ((step st1 (TEv.connClose p0)).1.connections =
      mapDelete st1.connections p0) ∧
    ((sendMessage st1 text none now).1.map Prod.fst =
      keys st1.connections) ∧
    senderName none = "Anonymous" := by
  refine ⟨?_, rfl, sendMessage_targets st1 text none now, rfl⟩
  intro p hp
  rcases run_connOpen_origin evts st0 p hp with h1 | h2
  · rw [h0] at h1
    simp [keys] at h1
  · exact h2

/-- Claim C10, witness: after one open event for A the Map holds only
peers with an open event; closing deletes; sends follow the Map; the
default sender is Anonymous. -/
theorem connections_open_invariant_witness :
    (∀ p, p ∈ keys (run initRoom [TEv.connOpen "A" 0]).connections →
      ∃ hd, TEv.connOpen p hd ∈ [TEv.connOpen "A" 0]) ∧
    ((step roomTwoOpen (TEv.connClose "A")).1.connections =
      mapDelete roomTwoOpen.connections "A") ∧
    ((sendMessage roomTwoOpen "hello" none 3).1.map Prod.fst =
      keys roomTwoOpen.connections) ∧
    senderName none = "Anonymous" :=
  connections_open_invariant [TEv.connOpen "A" 0] initRoom roomTwoOpen rfl
    "hello" 3 "A"
